import Mathlib

/-!
Shallow embedding of the drainage-topology core of the weppcloud-wbt
repository (WhiteboxTools fork): the `StreamJunctionIdentifier` tool
(stream_network_analysis/stream_junctions.rs), the `FindOutlet` tool
(hydro_analysis/find_outlet.rs) and the `HillslopesTopaz` tool
(hydro_analysis/hillslopes_topaz.rs), together with theorems settling the
frozen claims about them.

Modelling conventions:
* `f64` cell values are embedded as `ℚ`; all the checked claims only use
  comparisons, additions and multiplications of cell values, never
  transcendental functions, so the ordered-field structure is faithful.
* The `Raster` grid collaborator lives outside `src/`.  Modelled from the
  spec: a grid is rows x columns of double cell values with a nodata
  sentinel; `get_value`/indexing out of raster bounds yields the nodata
  sentinel (the WhiteboxTools raster convention relied on by the
  neighbour scans in stream_junctions.rs).
* Rust `isize` indices are `ℤ`, `usize` counters are `ℕ`.
-/

namespace Wbt

/-- Modelled from the spec: the external Grid collaborator (spec section 3
and 6): rows x columns of double-precision cell values plus a nodata
sentinel; reads outside the bounds give the nodata sentinel. -/
structure Grid where
  rows : ℕ
  cols : ℕ
  nodata : ℚ
  data : ℤ → ℤ → ℚ

/-- In-bounds test for a row/column pair, as in the Rust bounds checks
`r >= 0 && r < rows && c >= 0 && c < columns`. -/
def Grid.inb (g : Grid) (r c : ℤ) : Prop :=
  0 ≤ r ∧ r < (g.rows : ℤ) ∧ 0 ≤ c ∧ c < (g.cols : ℤ)

instance (g : Grid) (r c : ℤ) : Decidable (g.inb r c) := by
  unfold Grid.inb; infer_instance

/-- Indexed read `raster[(r, c)]` / `get_value(r, c)`: the stored value in
bounds, the nodata sentinel outside. -/
def Grid.idx (g : Grid) (r c : ℤ) : ℚ :=
  if g.inb r c then g.data r c else g.nodata

/-- Column offsets of the 8 neighbours, clockwise from north-east:
`dx = [1, 1, 1, 0, -1, -1, -1, 0]` (identical in all three tools). -/
def dxT : ℕ → ℤ
  | 0 => 1 | 1 => 1 | 2 => 1 | 3 => 0 | 4 => -1 | 5 => -1 | 6 => -1 | _ => 0

/-- Row offsets of the 8 neighbours:
`dy = [-1, 0, 1, 1, 1, 0, -1, -1]` (identical in all three tools). -/
def dyT : ℕ → ℤ
  | 0 => -1 | 1 => 0 | 2 => 1 | 3 => 1 | 4 => 1 | 5 => 0 | 6 => -1 | _ => -1

/-- The inflow table `inflowing_vals`: the pointer value a neighbour at
offset `k` must hold to flow into the centre cell.  WhiteboxTools
encoding `[16, 32, 64, 128, 1, 2, 4, 8]`, ESRI encoding
`[8, 16, 32, 64, 128, 1, 2, 4]` (stream_junctions.rs lines 229-232,
find_outlet.rs lines 758-761). -/
def inflowingVals (esri : Bool) : ℕ → ℚ
  | 0 => if esri then 8 else 16
  | 1 => if esri then 16 else 32
  | 2 => if esri then 32 else 64
  | 3 => if esri then 64 else 128
  | 4 => if esri then 128 else 1
  | 5 => if esri then 1 else 2
  | 6 => if esri then 2 else 4
  | 7 => if esri then 4 else 8
  | _ => 0

/-- The direction decode table of find_outlet.rs (lines 762-781):
`let mut pntr_matches: [i8; 129] = [0i8; 129];` followed by the eight
assignments for the chosen encoding.  Note the default entry is 0, not a
negative invalid marker. -/
def foPntrMatches (esri : Bool) (n : ℕ) : ℤ :=
  if esri then
    if n = 1 then 1 else if n = 2 then 2 else if n = 4 then 3
    else if n = 8 then 4 else if n = 16 then 5 else if n = 32 then 6
    else if n = 64 then 7 else if n = 128 then 0 else 0
  else
    if n = 1 then 0 else if n = 2 then 1 else if n = 4 then 2
    else if n = 8 then 3 else if n = 16 then 4 else if n = 32 then 5
    else if n = 64 then 6 else if n = 128 then 7 else 0

/-- The direction decode table of hillslopes_topaz.rs (lines 536-559):
`let mut pntr_matches: [usize; 129] = [8usize; 129];` with the eight
assignments; entries holding 8 are rejected by the validation pass.
An index beyond 128 would panic in Rust; it is modelled as the invalid
marker 8 and the theorems only use validated pointer values. -/
def hsPntrMatches (esri : Bool) (n : ℕ) : ℕ :=
  if esri then
    if n = 1 then 1 else if n = 2 then 2 else if n = 4 then 3
    else if n = 8 then 4 else if n = 16 then 5 else if n = 32 then 6
    else if n = 64 then 7 else if n = 128 then 0 else 8
  else
    if n = 1 then 0 else if n = 2 then 1 else if n = 4 then 2
    else if n = 8 then 3 else if n = 16 then 4 else if n = 32 then 5
    else if n = 64 then 6 else if n = 128 then 7 else 8

/-- The eight valid pointer codes in either encoding. -/
def validCodes : List ℕ := [1, 2, 4, 8, 16, 32, 64, 128]

/-! ## StreamJunctionIdentifier (stream_junctions.rs) -/

/-- One neighbour test of the junction scan (stream_junctions.rs line 243):
`streams[(rn, cn)] > 0.0 && pntr[(rn, cn)] == inflowing_vals[k]`, with the
raster indexing convention for out-of-bounds neighbours. -/
def sjiNbrTest (streams pntr : Grid) (esri : Bool) (r c : ℤ) (k : ℕ) : Prop :=
  0 < streams.idx (r + dyT k) (c + dxT k) ∧
    pntr.idx (r + dyT k) (c + dxT k) = inflowingVals esri k

instance (streams pntr : Grid) (esri : Bool) (r c : ℤ) (k : ℕ) :
    Decidable (sjiNbrTest streams pntr esri r c k) := by
  unfold sjiNbrTest; infer_instance

/-- The inner `for k in 0..8` counting loop of stream_junctions.rs
(lines 239-246), as a fold accumulating `cnt`. -/
def sjiCnt (streams pntr : Grid) (esri : Bool) (r c : ℤ) : ℕ :=
  (List.range 8).foldl
    (fun cnt k => if sjiNbrTest streams pntr esri r c k then cnt + 1 else cnt) 0

/-- The background value written to non-stream cells: `background_val`
starts at negative infinity and is replaced by the local
`nodata = -32768.0` (stream_junctions.rs lines 131, 210-213). -/
def sjiBackground : ℚ := -32768

/-- The value StreamJunctionIdentifier writes at cell (r, c)
(stream_junctions.rs lines 236-250): the per-cell body of the row/column
loop, which writes each in-bounds cell exactly once from read-only
inputs. -/
def sjiOutput (streams pntr : Grid) (esri : Bool) (r c : ℤ) : ℚ :=
  if 0 < streams.idx r c then (sjiCnt streams pntr esri r c : ℚ)
  else sjiBackground

/-- Claim-side junction count: the number of neighbour offsets whose cell
is a stream cell and whose pointer equals the inflow value for that
offset. -/
def inflowNbrCount (streams pntr : Grid) (esri : Bool) (r c : ℤ) : ℕ :=
  ((Finset.range 8).filter (fun k => sjiNbrTest streams pntr esri r c k)).card

/-! ## FindOutlet junction census (find_outlet.rs lines 786-819) -/

/-- One neighbour test of the FindOutlet junction scan (lines 794-807):
explicit bounds check, then
`neighbour_stream != streams_nodata && neighbour_stream > 0` and
`neighbour_pointer != pntr_nodata && neighbour_pointer == inflowing_vals[n]`. -/
def foNbrTest (streams pntr : Grid) (esri : Bool) (r c : ℤ) (n : ℕ) : Prop :=
  pntr.inb (r + dyT n) (c + dxT n) ∧
    streams.idx (r + dyT n) (c + dxT n) ≠ streams.nodata ∧
    0 < streams.idx (r + dyT n) (c + dxT n) ∧
    pntr.idx (r + dyT n) (c + dxT n) ≠ pntr.nodata ∧
    pntr.idx (r + dyT n) (c + dxT n) = inflowingVals esri n

instance (streams pntr : Grid) (esri : Bool) (r c : ℤ) (n : ℕ) :
    Decidable (foNbrTest streams pntr esri r c n) := by
  unfold foNbrTest; infer_instance

/-- The inner counting fold of FindOutlet (lines 793-808). -/
def foCnt (streams pntr : Grid) (esri : Bool) (r c : ℤ) : ℕ :=
  (List.range 8).foldl
    (fun cnt n => if foNbrTest streams pntr esri r c n then cnt + 1 else cnt) 0

/-- The `junction_counts` cell value FindOutlet computes (lines 786-819):
an `Array2D<i16>` initialised to -1, set to the neighbour count at every
in-bounds cell whose streams value is not nodata and positive. -/
def foJunctionCounts (streams pntr : Grid) (esri : Bool) (r c : ℤ) : ℤ :=
  if pntr.inb r c ∧ streams.idx r c ≠ streams.nodata ∧ 0 < streams.idx r c then
    (foCnt streams pntr esri r c : ℤ)
  else -1

end Wbt

namespace Wbt

/-! ## Counting lemmas -/

/-- The counting fold over the eight neighbour offsets computes the
cardinality of the set of offsets passing the test. -/
theorem foldl_count_eq_card (p : ℕ → Prop) [DecidablePred p] (n : ℕ) :
    (List.range n).foldl (fun cnt k => if p k then cnt + 1 else cnt) 0
      = ((Finset.range n).filter p).card := by
  induction n with
  | zero => simp
  | succ m ih =>
    have hnm : m ∉ (Finset.range m).filter p := by simp
    rw [List.range_succ, List.foldl_append, ih, Finset.range_succ,
      Finset.filter_insert]
    by_cases h : p m
    · rw [if_pos h, List.foldl_cons, if_pos h, List.foldl_nil,
        Finset.card_insert_of_not_mem hnm]
    · rw [if_neg h, List.foldl_cons, if_neg h, List.foldl_nil]

/-- Two counting folds over equivalent tests agree. -/
theorem foldl_count_congr (p q : ℕ → Prop) [DecidablePred p] [DecidablePred q]
    (n : ℕ) (h : ∀ k, k < n → (p k ↔ q k)) :
    (List.range n).foldl (fun cnt k => if p k then cnt + 1 else cnt) 0
      = (List.range n).foldl (fun cnt k => if q k then cnt + 1 else cnt) 0 := by
  rw [foldl_count_eq_card p n, foldl_count_eq_card q n]
  congr 1
  apply Finset.filter_congr
  intro k hk
  rw [Finset.mem_range] at hk
  exact h k hk

/-- C4: at each stream cell (streams value positive) the
StreamJunctionIdentifier output equals the number of neighbour offsets
whose cell is a stream cell and whose pointer value equals the inflow
value for that offset, a count between 0 and 8; every non-stream cell
receives the background value.  The statement quantifies over all pointer
grids, so arbitrary (including invalid) pointer values are covered: they
merely fail the equality test and contribute zero, and no failure result
exists. -/
theorem sji_census_counts_inflows (streams pntr : Grid) (esri : Bool) (r c : ℤ) :
    (0 < streams.idx r c →
        sjiOutput streams pntr esri r c
            = (inflowNbrCount streams pntr esri r c : ℚ)
          ∧ inflowNbrCount streams pntr esri r c ≤ 8)
      ∧ (¬ 0 < streams.idx r c →
        sjiOutput streams pntr esri r c = sjiBackground) := by
  constructor
  · intro hst
    constructor
    · rw [sjiOutput, if_pos hst, sjiCnt, inflowNbrCount,
        foldl_count_eq_card (fun k => sjiNbrTest streams pntr esri r c k) 8]
    · calc inflowNbrCount streams pntr esri r c
          ≤ (Finset.range 8).card := Finset.card_filter_le _ _
        _ = 8 := Finset.card_range 8
  · intro hst
    rw [sjiOutput, if_neg hst]

/-- Concrete grids for the C4 witness and the C5 counterexample: a 1 x 2
raster pair in which the pointer raster's nodata value is 32, one of the
WhiteboxTools inflow codes. -/
def cexStreams : Grid := ⟨1, 2, -1, fun _ _ => 1⟩

/-- Pointer grid whose nodata value coincides with inflow code 32 and
whose cell (0, 1) holds exactly that value. -/
def cexPntr : Grid := ⟨1, 2, 32, fun _ c => if c = 1 then 32 else 1⟩

/-- Witness for C4 at concrete cells: (0, 0) is a stream cell and gets the
neighbour count; (0, 5) reads as non-stream and gets the background. -/
theorem sji_census_counts_inflows_witness :
    (0 < cexStreams.idx 0 0
      ∧ (sjiOutput cexStreams cexPntr false 0 0
            = (inflowNbrCount cexStreams cexPntr false 0 0 : ℚ)
          ∧ inflowNbrCount cexStreams cexPntr false 0 0 ≤ 8))
    ∧ (¬ 0 < cexStreams.idx 0 5
      ∧ sjiOutput cexStreams cexPntr false 0 5 = sjiBackground) :=
  ⟨⟨by decide, (sji_census_counts_inflows cexStreams cexPntr false 0 0).1 (by decide)⟩,
   ⟨by decide, (sji_census_counts_inflows cexStreams cexPntr false 0 5).2 (by decide)⟩⟩

/-- C5 counterexample: with identical inputs the two junction censuses
disagree at a stream cell when the pointer raster's nodata value
coincides with an inflow code: FindOutlet skips a neighbour whose pointer
equals nodata while StreamJunctionIdentifier counts it. -/
theorem fo_sji_census_mismatch :
    0 < cexStreams.idx 0 0
      ∧ (foJunctionCounts cexStreams cexPntr false 0 0 : ℚ)
          ≠ sjiOutput cexStreams cexPntr false 0 0 := by
  decide

/-- C5 (amended): for identical streams and pointer rasters of equal
dimensions and the same encoding flag, provided the streams nodata value
is not positive and the pointer nodata value is not one of the eight
inflow codes, the junction count FindOutlet computes equals the
StreamJunctionIdentifier output at every stream cell. -/
theorem fo_census_matches_sji (streams pntr : Grid) (esri : Bool) (r c : ℤ)
    (hrows : pntr.rows = streams.rows) (hcols : pntr.cols = streams.cols)
    (hsn : streams.nodata ≤ 0)
    (hpn : ∀ k, k < 8 → pntr.nodata ≠ inflowingVals esri k)
    (hst : 0 < streams.idx r c) :
    (foJunctionCounts streams pntr esri r c : ℚ)
      = sjiOutput streams pntr esri r c := by
  have hinb_of_pos : ∀ a b : ℤ, 0 < streams.idx a b → streams.inb a b := by
    intro a b hpos
    by_contra hout
    rw [Grid.idx, if_neg hout] at hpos
    exact absurd (lt_of_lt_of_le hpos hsn) (lt_irrefl 0)
  have hinb : streams.inb r c := hinb_of_pos r c hst
  have hpinb : pntr.inb r c := by
    rcases hinb with ⟨h1, h2, h3, h4⟩
    exact ⟨h1, by rw [hrows]; exact h2, h3, by rw [hcols]; exact h4⟩
  have hne : streams.idx r c ≠ streams.nodata := by
    intro he
    exact absurd (lt_of_lt_of_le (he ▸ hst) hsn) (lt_irrefl 0)
  have htest : ∀ k, k < 8 →
      (foNbrTest streams pntr esri r c k ↔ sjiNbrTest streams pntr esri r c k) := by
    intro k hk
    constructor
    · rintro ⟨_, _, hpos, _, hval⟩
      exact ⟨hpos, hval⟩
    · rintro ⟨hpos, hval⟩
      have hnin : streams.inb (r + dyT k) (c + dxT k) := hinb_of_pos _ _ hpos
      have hpin : pntr.inb (r + dyT k) (c + dxT k) := by
        rcases hnin with ⟨h1, h2, h3, h4⟩
        exact ⟨h1, by rw [hrows]; exact h2, h3, by rw [hcols]; exact h4⟩
      refine ⟨hpin, ?_, hpos, ?_, hval⟩
      · intro he
        exact absurd (lt_of_lt_of_le (he ▸ hpos) hsn) (lt_irrefl 0)
      · intro he
        exact hpn k hk (by rw [← he, hval])
  rw [foJunctionCounts, if_pos ⟨hpinb, hne, hst⟩, sjiOutput, if_pos hst]
  rw [foCnt, sjiCnt, foldl_count_congr _ _ 8 htest]
  norm_cast

/-- Witness for C5 (amended) at a concrete aligned raster pair with
benign nodata values. -/
def okStreams : Grid := ⟨1, 2, -1, fun _ _ => 1⟩

/-- Pointer grid companion of `okStreams` with nodata -2. -/
def okPntr : Grid := ⟨1, 2, -2, fun _ c => if c = 1 then 32 else 1⟩

/-- Witness instantiating the amended C5 theorem at cell (0, 0). -/
theorem fo_census_matches_sji_witness :
    (okPntr.rows = okStreams.rows ∧ okPntr.cols = okStreams.cols
      ∧ okStreams.nodata ≤ 0
      ∧ (∀ k, k < 8 → okPntr.nodata ≠ inflowingVals false k)
      ∧ 0 < okStreams.idx 0 0)
    ∧ (foJunctionCounts okStreams okPntr false 0 0 : ℚ)
        = sjiOutput okStreams okPntr false 0 0 :=
  ⟨⟨by decide, by decide, by decide, by decide, by decide⟩,
    fo_census_matches_sji okStreams okPntr false 0 0 (by decide) (by decide)
      (by decide) (by decide) (by decide)⟩

end Wbt

namespace Wbt

/-! ## HillslopesTopaz grid-alignment check (hillslopes_topaz.rs) -/

/-- Raster configuration fields compared by `rasters_share_geometry`
(hillslopes_topaz.rs lines 1178-1188). -/
structure RasterCfg where
  rows : ℕ
  cols : ℕ
  north : ℚ
  south : ℚ
  east : ℚ
  west : ℚ
  resx : ℚ
  resy : ℚ
deriving DecidableEq

/-- Agreement of two raster configurations on all eight compared fields. -/
def sameGeometry (a b : RasterCfg) : Prop :=
  a.rows = b.rows ∧ a.cols = b.cols ∧ a.north = b.north ∧ a.south = b.south ∧
    a.east = b.east ∧ a.west = b.west ∧ a.resx = b.resx ∧ a.resy = b.resy

instance (a b : RasterCfg) : Decidable (sameGeometry a b) := by
  unfold sameGeometry; infer_instance

/-- The `rasters_share_geometry` helper (hillslopes_topaz.rs lines
1173-1192): every raster after the first must match the first on rows,
columns, the four bounds, and both resolutions. -/
def rasters_share_geometry : List RasterCfg → Bool
  | [] => true
  | base :: rest => rest.all (fun r => decide (sameGeometry base r))

/-- The grid-alignment validation performed by `HillslopesTopaz::run`
(line 501): `rasters_share_geometry(&[&dem, &d8_pntr, &streams,
&watershed, &chnjnt])`.  The run also reads the stream-order raster
(line 491) and uses it (line 799), but does not pass it to the check;
the unused final parameter records that. -/
def hillslopesGeometryCheck
    (dem d8 streams watershed chnjnt _ord : RasterCfg) : Bool :=
  rasters_share_geometry [dem, d8, streams, watershed, chnjnt]

/-- C2 counterexample: the validation passes even though the stream-order
raster, which participates in the analysis, has a different row count
from the DEM. -/
def cfgBase : RasterCfg := ⟨10, 10, 100, 0, 100, 0, 1, 1⟩

/-- A misaligned configuration differing from `cfgBase` in rows. -/
def cfgMis : RasterCfg := ⟨11, 10, 100, 0, 100, 0, 1, 1⟩

/-- C2 counterexample: `HillslopesTopaz` accepts a run whose stream-order
grid is misaligned with every other grid, so the claim that every
participating grid is verified fails at this input. -/
theorem geometry_check_ignores_order_grid :
    hillslopesGeometryCheck cfgBase cfgBase cfgBase cfgBase cfgBase cfgMis = true
      ∧ cfgMis.rows ≠ cfgBase.rows := by
  decide

/-- C2 (amended): before any analysis phase the validation passes exactly
when the D8 pointer, streams, watershed and channel-junction grids each
share all eight geometry fields with the DEM; a mismatch in any of those
four aborts the run, while the stream-order grid is not inspected at
all. -/
theorem geometry_check_covers_named_grids
    (dem d8 streams watershed chnjnt ord : RasterCfg) :
    (hillslopesGeometryCheck dem d8 streams watershed chnjnt ord = true ↔
        sameGeometry dem d8 ∧ sameGeometry dem streams ∧
          sameGeometry dem watershed ∧ sameGeometry dem chnjnt)
      ∧ (∀ ord2, hillslopesGeometryCheck dem d8 streams watershed chnjnt ord2
          = hillslopesGeometryCheck dem d8 streams watershed chnjnt ord) := by
  constructor
  · simp [hillslopesGeometryCheck, rasters_share_geometry, and_assoc]
  · intro ord2
    rfl

/-! ## HillslopesTopaz invariant enforcement (C8, C1) -/

/-- Row-major list of in-bounds cells of a grid, the iteration order of
the Rust double loops. -/
def cellList (g : Grid) : List (ℤ × ℤ) :=
  (List.range g.rows).flatMap
    (fun r => (List.range g.cols).map (fun c => (Int.ofNat r, Int.ofNat c)))

/-- One bad cell for the chnjnt validation: a non-nodata value above 3
(hillslopes_topaz.rs line 515). -/
def chnjntBadCell (g : Grid) (r c : ℤ) : Prop :=
  g.idx r c ≠ g.nodata ∧ 3 < g.idx r c

instance (g : Grid) (r c : ℤ) : Decidable (chnjntBadCell g r c) := by
  unfold chnjntBadCell; infer_instance

/-- The cell scan of the chnjnt validation loop (lines 509-519), with the
early error return at the first offending cell. -/
def scanChnjntCells (g : Grid) : List (ℤ × ℤ) → Except Unit Unit
  | [] => .ok ()
  | (r, c) :: rest =>
    if chnjntBadCell g r c then .error () else scanChnjntCells g rest

/-- The chnjnt validation of `HillslopesTopaz::run` (lines 509-519). -/
def validateChnjnt (g : Grid) : Except Unit Unit :=
  scanChnjntCells g (cellList g)

/-- The cell scan errs exactly when some listed cell is bad. -/
theorem scanChnjntCells_error_iff (g : Grid) (l : List (ℤ × ℤ)) :
    scanChnjntCells g l = .error () ↔ ∃ p ∈ l, chnjntBadCell g p.1 p.2 := by
  induction l with
  | nil => simp [scanChnjntCells]
  | cons hd tl ih =>
    by_cases h : chnjntBadCell g hd.1 hd.2
    · simp only [scanChnjntCells, h, if_pos]
      simp [h]
    · simp only [scanChnjntCells]
      rw [if_neg (by simpa using h)]
      simp only [ih, List.mem_cons]
      constructor
      · rintro ⟨p, hp, hbad⟩
        exact ⟨p, Or.inr hp, hbad⟩
      · rintro ⟨p, hp | hp, hbad⟩
        · exact absurd (hp ▸ hbad) h
        · exact ⟨p, hp, hbad⟩

/-- Membership in the row-major cell list is exactly the in-bounds
predicate. -/
theorem mem_cellList_iff (g : Grid) (r c : ℤ) :
    (r, c) ∈ cellList g ↔ g.inb r c := by
  unfold cellList Grid.inb
  constructor
  · intro h
    rw [List.mem_flatMap] at h
    obtain ⟨rn, hrn, hmem⟩ := h
    rw [List.mem_range] at hrn
    rw [List.mem_map] at hmem
    obtain ⟨cn, hcn, heq⟩ := hmem
    rw [List.mem_range] at hcn
    have h1 : (rn : ℤ) = r := congrArg Prod.fst heq
    have h2 : (cn : ℤ) = c := congrArg Prod.snd heq
    omega
  · rintro ⟨h1, h2, h3, h4⟩
    rw [List.mem_flatMap]
    refine ⟨r.toNat, ?_, ?_⟩
    · rw [List.mem_range]
      omega
    · have hpair : (r, c) = ((r.toNat : ℤ), (c.toNat : ℤ)) := by
        rw [Prod.mk.injEq]
        constructor <;> omega
      rw [hpair]
      exact List.mem_map_of_mem _ (by rw [List.mem_range]; omega)

/-! Links: the channel-link record of hillslopes_topaz.rs (lines 45-85).
The three elevation fields are initialised to `f64::NAN` in the source;
no claim below reads them, and the `ℚ` embedding initialises them to 0. -/

/-- The `Link` struct of hillslopes_topaz.rs. -/
structure Link where
  id : ℤ
  topaz_id : ℤ
  ds : ℤ × ℤ
  us : ℤ × ℤ
  inflow0_id : ℤ
  inflow1_id : ℤ
  inflow2_id : ℤ
  length_m : ℚ
  ds_z : ℚ
  us_z : ℚ
  drop_m : ℚ
  order : ℕ
  areaup : ℚ
  is_headwater : Bool
  is_outlet : Bool
  path : List (ℤ × ℤ)
deriving DecidableEq

/-- `Link::new` defaults (elevations modelled as 0 instead of NaN). -/
def Link.new : Link :=
  ⟨-1, 0, (-1, -1), (-1, -1), -1, -1, -1, 0, 0, 0, 0, 0, 0, false, false, []⟩

/-- The inflow-collection loop body for one link (hillslopes_topaz.rs
lines 750-762): scan all links, append those whose downstream endpoint
equals the given upstream endpoint, and err as soon as the collection
exceeds three. -/
def collectInflowsAux (us : ℤ × ℤ) : List Link → List ℤ → Except Unit (List ℤ)
  | [], acc => .ok acc
  | l :: rest, acc =>
    let acc2 := if l.ds = us then acc ++ [l.id] else acc
    if 3 < acc2.length then .error () else collectInflowsAux us rest acc2

/-- Inflow resolution for one non-headwater link. -/
def collectInflows (links : List Link) (us : ℤ × ℤ) : Except Unit (List ℤ) :=
  collectInflowsAux us links []

/-- Auxiliary characterisation of the early-exit inflow scan. -/
theorem collectInflowsAux_error_iff (us : ℤ × ℤ) (l : List Link) :
    ∀ acc : List ℤ, acc.length ≤ 3 →
      (collectInflowsAux us l acc = .error () ↔
        3 < acc.length + (l.filter (fun x => x.ds = us)).length) := by
  induction l with
  | nil =>
    intro acc hacc
    constructor
    · intro h
      exact absurd h (by simp [collectInflowsAux])
    · intro h
      simp only [List.filter_nil, List.length_nil, Nat.add_zero] at h
      omega
  | cons hd tl ih =>
    intro acc hacc
    by_cases hds : hd.ds = us
    · have hfil : (hd :: tl).filter (fun x => x.ds = us)
          = hd :: tl.filter (fun x => x.ds = us) := by
        simp [List.filter_cons, hds]
      by_cases hlen : 3 < (acc ++ [hd.id]).length
      · have hlhs : collectInflowsAux us (hd :: tl) acc = .error () := by
          simp only [collectInflowsAux, hds, if_true]
          rw [if_pos hlen]
        rw [hlhs, hfil]
        simp only [List.length_append, List.length_cons, List.length_nil] at hlen ⊢
        exact iff_of_true trivial (by omega)
      · have hstep : collectInflowsAux us (hd :: tl) acc
            = collectInflowsAux us tl (acc ++ [hd.id]) := by
          simp only [collectInflowsAux, hds, if_true]
          rw [if_neg hlen]
        have hlen2 : (acc ++ [hd.id]).length ≤ 3 := by omega
        rw [hstep, ih _ hlen2, hfil]
        simp only [List.length_append, List.length_cons, List.length_nil]
        omega
    · have hfil : (hd :: tl).filter (fun x => x.ds = us)
          = tl.filter (fun x => x.ds = us) := by
        simp [List.filter_cons, hds]
      have hstep : collectInflowsAux us (hd :: tl) acc
          = collectInflowsAux us tl acc := by
        simp only [collectInflowsAux, hds, if_false]
        rw [if_neg (by omega)]
      rw [hstep, ih _ hacc, hfil]

/-- C8: the at-most-3-inflows invariant is enforced twice with hard
failures.  The chnjnt validation errs exactly when some in-bounds cell
holds a non-nodata value greater than 3, and the inflow resolution for a
link errs exactly when more than 3 links have their downstream endpoint
at the given upstream endpoint (the error fires as soon as a fourth match
is appended). -/
theorem inflow_limit_enforced (g : Grid) (links : List Link) (us : ℤ × ℤ) :
    (validateChnjnt g = .error () ↔
        ∃ r c : ℤ, g.inb r c ∧ g.idx r c ≠ g.nodata ∧ 3 < g.idx r c)
      ∧ (collectInflows links us = .error () ↔
        3 < (links.filter (fun x => x.ds = us)).length) := by
  constructor
  · rw [validateChnjnt, scanChnjntCells_error_iff]
    constructor
    · rintro ⟨⟨r, c⟩, hmem, hbad⟩
      exact ⟨r, c, (mem_cellList_iff g r c).1 hmem, hbad⟩
    · rintro ⟨r, c, hin, hbad⟩
      exact ⟨(r, c), (mem_cellList_iff g r c).2 hin, hbad⟩
  · rw [collectInflows, collectInflowsAux_error_iff us links [] (by simp)]
    simp

/-! ## Phase 3 outlet sweep (C1) -/

/-- The outlet-locating sweep of Phase 3 (hillslopes_topaz.rs lines
812-827): `for i in 1..links.len()` looks for the first link flagged
`is_outlet`, starting at index 1. -/
def phase3OutletIdx (links : List Link) : Option ℕ :=
  ((List.range links.length).drop 1).find?
    (fun i => (links.getD i Link.new).is_outlet)

/-- Phase 3 entry: on success the found outlet link receives TOPAZ id 24
(`next_id` starts at 24); otherwise the run aborts with the
`No outlet link found` error (line 826). -/
def phase3FindOutlet (links : List Link) : Except Unit (ℕ × ℤ) :=
  match phase3OutletIdx links with
  | some i => .ok (i, 24)
  | none => .error ()

/-- A single-link network: one headwater whose downstream walk reaches the
pour point directly, making the only link (index 0) the outlet link. -/
def soloOutletLink : Link :=
  { Link.new with
      id := 0, us := (0, 0), ds := (3, 0), is_headwater := true,
      is_outlet := true, path := [(0, 0), (1, 0), (2, 0), (3, 0)] }

/-- C1 failing input: the sweep starts at index 1, so a link set whose
only outlet link sits at index 0 makes Phase 3 abort with the
`No outlet link found` error even though an outlet link is flagged. -/
theorem outlet_sweep_skips_first_link :
    soloOutletLink.is_outlet = true
      ∧ phase3FindOutlet [soloOutletLink] = .error () :=
  ⟨rfl, rfl⟩

/-! ## Direction codec (C6) -/

set_option maxHeartbeats 1600000 in
/-- Every entry of the find_outlet.rs decode table is non-negative, so the
`dir < 0` invalidity branch is unreachable. -/
theorem foPntrMatches_nonneg (esri : Bool) (n : ℕ) : 0 ≤ foPntrMatches esri n := by
  cases esri <;>
    · unfold foPntrMatches
      split_ifs <;> decide

/-- Claim-side byte view of the inflow table, for composing it with the
decode tables. -/
def inflowCodes (esri : Bool) : ℕ → ℕ
  | 0 => if esri then 8 else 16
  | 1 => if esri then 16 else 32
  | 2 => if esri then 32 else 64
  | 3 => if esri then 64 else 128
  | 4 => if esri then 128 else 1
  | 5 => if esri then 1 else 2
  | 6 => if esri then 2 else 4
  | 7 => if esri then 4 else 8
  | _ => 0

/-- C6 failing input: the byte value 3 is not one of the eight valid
codes, yet the find_outlet.rs decode table (initialised to `0i8` rather
than to a negative invalid marker) maps it to direction 0 in both
encodings, and the `dir < 0` invalidity test at find_outlet.rs line 303
can never fire for any index, so invalid codes silently default to a
direction instead of being marked invalid.  The hillslopes_topaz.rs table
marks the same entry with the invalid marker 8, and the inflow-inverse
part of the claim does hold: for every direction d the inflow code for
offset d decodes to direction (d + 4) mod 8. -/
theorem fo_decode_table_accepts_invalid_code :
    (3 ∉ validCodes)
      ∧ foPntrMatches false 3 = 0 ∧ foPntrMatches true 3 = 0
      ∧ (∀ n : ℕ, ¬ foPntrMatches false n < 0)
      ∧ (∀ n : ℕ, ¬ foPntrMatches true n < 0)
      ∧ hsPntrMatches false 3 = 8 ∧ hsPntrMatches true 3 = 8
      ∧ (∀ d : ℕ, d < 8 →
          hsPntrMatches false (inflowCodes false d) = (d + 4) % 8
            ∧ hsPntrMatches true (inflowCodes true d) = (d + 4) % 8
            ∧ (inflowCodes false d : ℚ) = inflowingVals false d
            ∧ (inflowCodes true d : ℚ) = inflowingVals true d) := by
  refine ⟨by decide, by decide, by decide, ?_, ?_, by decide, by decide, by decide⟩
  · exact fun n => not_lt.mpr (foPntrMatches_nonneg false n)
  · exact fun n => not_lt.mpr (foPntrMatches_nonneg true n)

end Wbt

namespace Wbt

/-! ## FindOutlet flow tracer (find_outlet.rs lines 134-432) -/

/-- `TraceStartMode` (find_outlet.rs lines 134-138). -/
inductive TraceStartMode
  | requested
  | watershedCandidate
deriving DecidableEq

/-- The distinct failure branches of `trace_flow_path`, one per formatted
reason message. -/
inductive TraceReason
  | startOutOfBounds
  | loopDetected
  | invalidPointer
  | pointerOutOfRange
  | unsupportedPointer
  | edgeJunctionMismatch
  | exitedNoStream
  | exceededSteps
deriving DecidableEq

/-- `TraceSuccessData` (find_outlet.rs lines 169-177). -/
structure TraceSuccess where
  outletRow : ℤ
  outletCol : ℤ
  stepsTaken : ℕ
  stepsBeyondMask : ℕ
  outletDownstream : Bool
  outletJunctionCount : ℤ
deriving DecidableEq

/-- `TraceFailureData` (find_outlet.rs lines 179-182), with the reason
kept as the branch tag instead of the formatted string. -/
structure TraceFailure where
  reason : TraceReason
  lastJunction : Option (ℤ × ℤ × ℤ)
deriving DecidableEq

/-- `TraceContext` (find_outlet.rs lines 149-162): the mask is the
`Array2D<u8>` watershed mask (total function, accessed in bounds only),
`junction` the `Array2D<i16>` junction-count grid. -/
structure TraceCtx where
  pntr : Grid
  streams : Grid
  mask : Option (ℤ → ℤ → ℕ)
  junction : ℤ → ℤ → ℤ
  esri : Bool
  rows : ℤ
  cols : ℤ

/-- `max_steps = (rows * columns * 4).max(1) as usize` (find_outlet.rs
line 962), computed from the context dimensions exactly as by
`FindOutlet::run`, the only caller of `trace_flow_path`. -/
def TraceCtx.maxSteps (ctx : TraceCtx) : ℕ :=
  (max (ctx.rows * ctx.cols * 4) 1).toNat

/-- The mutable loop state of `trace_flow_path` (lines 210-214 plus the
walking row/col). -/
structure TraceState where
  row : ℤ
  col : ℤ
  visited : Finset (ℤ × ℤ)
  steps : ℕ
  hasLeftMask : Bool
  stepsBeyondMask : ℕ
  lastJunction : Option (ℤ × ℤ × ℤ)
deriving DecidableEq

/-- The shared tail of a continuing iteration (find_outlet.rs lines
407-430, duplicated verbatim in the stream and non-stream branches):
err with the exceeded-step-count reason once the incremented count
reaches the budget, otherwise carry the updated state into the next
iteration. -/
def traceAdvance (ctx : TraceCtx) (visited2 : Finset (ℤ × ℤ)) (nr nc : ℤ)
    (steps2 : ℕ) (hlm : Bool) (sbm : ℕ) (lj : Option (ℤ × ℤ × ℤ)) :
    Except TraceFailure TraceSuccess ⊕ TraceState :=
  if ctx.maxSteps ≤ steps2 then
    Sum.inl (Except.error ⟨TraceReason.exceededSteps, lj⟩)
  else Sum.inr ⟨nr, nc, visited2, steps2, hlm, sbm, lj⟩

/-- Rust `pointer.round() as usize` for the positive pointers that reach
it (the `pointer <= 0` test precedes the rounding): for positive q,
`f64::round` (half away from zero) equals ⌊q + 1/2⌋, written in
numerator/denominator form so that concrete runs evaluate. -/
def rustRoundPos (q : ℚ) : ℕ :=
  ((2 * q.num + (q.den : ℤ)) / (2 * (q.den : ℤ))).toNat

/-- The explicit rounding agrees with the mathematical rounding of the
positive pointer value. -/
theorem rustRoundPos_eq_round (q : ℚ) (hq : 0 < q) :
    (rustRoundPos q : ℤ) = round q := by
  have hnum : 0 < q.num := Rat.num_pos.mpr hq
  have hden : (0 : ℚ) < (q.den : ℚ) := by
    exact_mod_cast q.pos
  have h2 : q + 1 / 2 = ((2 * q.num + (q.den : ℤ) : ℤ) : ℚ) / ((2 * q.den : ℕ) : ℚ) := by
    conv_lhs => rw [← Rat.num_div_den q]
    push_cast
    field_simp
    ring
  rw [round_eq, h2, Rat.floor_intCast_div_natCast, rustRoundPos]
  have hd2 : (0 : ℤ) ≤ 2 * (q.den : ℤ) := by positivity
  have hn2 : (0 : ℤ) ≤ 2 * q.num + (q.den : ℤ) := by
    have : (0 : ℤ) < (q.den : ℤ) := by exact_mod_cast q.pos
    omega
  rw [Int.toNat_of_nonneg (Int.ediv_nonneg hn2 hd2)]
  norm_num

/-- Iteration tail after the move to the next cell (find_outlet.rs lines
373-430): the mask-exit update, the stream test at the new cell with its
mid-path acceptance, and the step-budget check.  `steps2` is the
already-incremented step count, `hlm2` the has-left-mask flag after the
mask-edge block, `lj` the current last-junction record. -/
def traceCellStep (ctx : TraceCtx) (mode : TraceStartMode) (s : TraceState)
    (visited2 : Finset (ℤ × ℤ)) (nr nc : ℤ) (steps2 : ℕ) (hlm2 : Bool)
    (lj : Option (ℤ × ℤ × ℤ)) :
    Except TraceFailure TraceSuccess ⊕ TraceState :=
  let maskZeroNext : Bool :=
    match ctx.mask with
    | some m => decide (m nr nc = 0)
    | none => false
  let hlm3 := maskZeroNext || hlm2
  let sbm2 := if maskZeroNext then s.stepsBeyondMask + 1 else s.stepsBeyondMask
  let streamVal2 := ctx.streams.idx nr nc
  if streamVal2 ≠ ctx.streams.nodata ∧ 0 < streamVal2 then
    let junction2 := ctx.junction nr nc
    if junction2 = 1 ∧ (mode = TraceStartMode.requested ∨ hlm3 = true) then
      let downstream : Bool :=
        match ctx.mask with
        | some m => decide (m nr nc = 0)
        | none => hlm3
      Sum.inl (Except.ok ⟨nr, nc, steps2, sbm2, downstream, junction2⟩)
    else
      let lj3 := if junction2 ≠ 1 then some (nr, nc, junction2) else lj
      traceAdvance ctx visited2 nr nc steps2 hlm3 sbm2 lj3
  else
    traceAdvance ctx visited2 nr nc steps2 hlm3 sbm2 lj

/-- Iteration middle after the in-bounds check of the next cell
(find_outlet.rs lines 354-371): the watershed-edge acceptance and the
corresponding flag updates. -/
def traceMaskEdge (ctx : TraceCtx) (mode : TraceStartMode) (s : TraceState)
    (visited2 : Finset (ℤ × ℤ)) (isStream : Bool) (junctionCount : ℤ)
    (hlm1 : Bool) (lj1 : Option (ℤ × ℤ × ℤ)) (nr nc : ℤ) (steps2 : ℕ) :
    Except TraceFailure TraceSuccess ⊕ TraceState :=
  let maskEdge : Bool :=
    match ctx.mask with
    | some m => decide (m s.row s.col = 1) && decide (m nr nc = 0)
    | none => false
  if maskEdge && isStream && decide (junctionCount = 1) then
    Sum.inl (Except.ok
      ⟨s.row, s.col, steps2, s.stepsBeyondMask, false, junctionCount⟩)
  else
    let lj2 :=
      if maskEdge && isStream && decide (junctionCount ≠ 1) then
        some (s.row, s.col, junctionCount)
      else lj1
    let hlm2 := maskEdge || hlm1
    traceCellStep ctx mode s visited2 nr nc steps2 hlm2 lj2

/-- Iteration middle after the acceptance test (find_outlet.rs lines
260-352): last-junction bookkeeping, pointer decoding with its three
failure branches, the step increment, and the raster-edge exit. -/
def traceDecode (ctx : TraceCtx) (mode : TraceStartMode) (s : TraceState)
    (visited2 : Finset (ℤ × ℤ)) (isStream : Bool) (junctionCount : ℤ)
    (hlm1 : Bool) (odn : Bool) :
    Except TraceFailure TraceSuccess ⊕ TraceState :=
  let lj1 :=
    if isStream && decide (junctionCount ≠ 1) then
      some (s.row, s.col, junctionCount)
    else s.lastJunction
  let pointer := ctx.pntr.idx s.row s.col
  if pointer = ctx.pntr.nodata ∨ pointer ≤ 0 then
    Sum.inl (Except.error ⟨TraceReason.invalidPointer, lj1⟩)
  else
    let pointerIndex : ℕ := rustRoundPos pointer
    if 129 ≤ pointerIndex then
      Sum.inl (Except.error ⟨TraceReason.pointerOutOfRange, lj1⟩)
    else
      let dir := foPntrMatches ctx.esri pointerIndex
      if dir < 0 then
        Sum.inl (Except.error ⟨TraceReason.unsupportedPointer, lj1⟩)
      else
        let nr := s.row + dyT dir.toNat
        let nc := s.col + dxT dir.toNat
        let steps2 := s.steps + 1
        if nr < 0 ∨ ctx.rows ≤ nr ∨ nc < 0 ∨ ctx.cols ≤ nc then
          if isStream && decide (junctionCount = 1) then
            Sum.inl (Except.ok
              ⟨s.row, s.col, steps2, s.stepsBeyondMask,
                odn || hlm1, junctionCount⟩)
          else if isStream then
            Sum.inl (Except.error ⟨TraceReason.edgeJunctionMismatch, lj1⟩)
          else
            Sum.inl (Except.error ⟨TraceReason.exitedNoStream, lj1⟩)
        else
          traceMaskEdge ctx mode s visited2 isStream junctionCount hlm1 lj1
            nr nc steps2

/-- One iteration of the `loop` in `trace_flow_path` (lines 216-431):
either a final result (`Sum.inl`) or the state for the next iteration
(`Sum.inr`).  The single-assignment locals of the Rust body are passed to
the stage helpers as parameters. -/
def traceBody (ctx : TraceCtx) (mode : TraceStartMode) (s : TraceState) :
    Except TraceFailure TraceSuccess ⊕ TraceState :=
  if (s.row, s.col) ∈ s.visited then
    Sum.inl (Except.error ⟨TraceReason.loopDetected, s.lastJunction⟩)
  else
    let visited2 := insert (s.row, s.col) s.visited
    let hlm1 : Bool :=
      match ctx.mask with
      | some m => if m s.row s.col = 0 then true else s.hasLeftMask
      | none => s.hasLeftMask
    let streamVal := ctx.streams.idx s.row s.col
    let isStream : Bool := decide (streamVal ≠ ctx.streams.nodata ∧ 0 < streamVal)
    let junctionCount : ℤ := if isStream then ctx.junction s.row s.col else -1
    let outletDownstreamNow : Bool :=
      match ctx.mask with
      | some m => decide (m s.row s.col = 0)
      | none => false
    let acceptCurrent : Bool :=
      match mode with
      | TraceStartMode.requested => isStream && decide (junctionCount = 1)
      | TraceStartMode.watershedCandidate =>
          hlm1 && isStream && decide (junctionCount = 1)
    if acceptCurrent then
      Sum.inl (Except.ok
        ⟨s.row, s.col, s.steps, s.stepsBeyondMask, outletDownstreamNow, junctionCount⟩)
    else
      traceDecode ctx mode s visited2 isStream junctionCount hlm1
        outletDownstreamNow

/-- The trace loop with an explicit iteration budget; the body runs at
most `max_steps` times because every continuing iteration increments
`steps` and the post-increment `steps >= max_steps` check errs, so fuel
equal to `max_steps` is never exhausted (proved below). -/
def traceLoop (ctx : TraceCtx) (mode : TraceStartMode) :
    ℕ → TraceState → Option (Except TraceFailure TraceSuccess)
  | 0, _ => none
  | fuel + 1, s =>
    match traceBody ctx mode s with
    | Sum.inl res => some res
    | Sum.inr s2 => traceLoop ctx mode fuel s2

/-- The state at loop entry: empty visited set, zero counters (lines
210-214). -/
def initState (r c : ℤ) : TraceState := ⟨r, c, ∅, 0, false, 0, none⟩

/-- `trace_flow_path` (find_outlet.rs lines 194-432): the start-cell
bounds check followed by the walking loop. -/
def trace_flow_path (ctx : TraceCtx) (mode : TraceStartMode) (r c : ℤ) :
    Option (Except TraceFailure TraceSuccess) :=
  if r < 0 ∨ ctx.rows ≤ r ∨ c < 0 ∨ ctx.cols ≤ c then
    some (Except.error ⟨TraceReason.startOutOfBounds, none⟩)
  else traceLoop ctx mode ctx.maxSteps (initState r c)

/-- The continuation helper advances to the given step count only
strictly below the budget. -/
theorem traceAdvance_inr {ctx : TraceCtx} {visited2 : Finset (ℤ × ℤ)}
    {nr nc : ℤ} {steps2 : ℕ} {hlm : Bool} {sbm : ℕ}
    {lj : Option (ℤ × ℤ × ℤ)} {s2 : TraceState}
    (h : traceAdvance ctx visited2 nr nc steps2 hlm sbm lj = Sum.inr s2) :
    s2.steps = steps2 ∧ s2.steps < ctx.maxSteps := by
  unfold traceAdvance at h
  split at h
  · exact absurd h Sum.inl_ne_inr
  · cases h
    rename_i hle
    refine ⟨rfl, ?_⟩
    show steps2 < ctx.maxSteps
    omega

/-- The post-move stage keeps the given step count when continuing. -/
theorem traceCellStep_inr {ctx : TraceCtx} {mode : TraceStartMode}
    {s : TraceState} {visited2 : Finset (ℤ × ℤ)} {nr nc : ℤ} {steps2 : ℕ}
    {hlm2 : Bool} {lj : Option (ℤ × ℤ × ℤ)} {s2 : TraceState}
    (h : traceCellStep ctx mode s visited2 nr nc steps2 hlm2 lj = Sum.inr s2) :
    s2.steps = steps2 ∧ s2.steps < ctx.maxSteps := by
  simp only [traceCellStep] at h
  repeat' split at h
  all_goals
    first
      | exact absurd h Sum.inl_ne_inr
      | exact traceAdvance_inr h

/-- The mask-edge stage keeps the given step count when continuing. -/
theorem traceMaskEdge_inr {ctx : TraceCtx} {mode : TraceStartMode}
    {s : TraceState} {visited2 : Finset (ℤ × ℤ)} {isStream : Bool}
    {junctionCount : ℤ} {hlm1 : Bool} {lj1 : Option (ℤ × ℤ × ℤ)}
    {nr nc : ℤ} {steps2 : ℕ} {s2 : TraceState}
    (h : traceMaskEdge ctx mode s visited2 isStream junctionCount hlm1 lj1
        nr nc steps2 = Sum.inr s2) :
    s2.steps = steps2 ∧ s2.steps < ctx.maxSteps := by
  simp only [traceMaskEdge] at h
  repeat' split at h
  all_goals
    first
      | exact absurd h Sum.inl_ne_inr
      | exact traceCellStep_inr h

/-- The decode stage continues with the incremented step count only. -/
theorem traceDecode_inr {ctx : TraceCtx} {mode : TraceStartMode}
    {s : TraceState} {visited2 : Finset (ℤ × ℤ)} {isStream : Bool}
    {junctionCount : ℤ} {hlm1 : Bool} {odn : Bool} {s2 : TraceState}
    (h : traceDecode ctx mode s visited2 isStream junctionCount hlm1 odn
        = Sum.inr s2) :
    s2.steps = s.steps + 1 ∧ s2.steps < ctx.maxSteps := by
  simp only [traceDecode] at h
  repeat' split at h
  all_goals
    first
      | exact absurd h Sum.inl_ne_inr
      | exact traceMaskEdge_inr h

/-- A continuing iteration advances `steps` by exactly one and only
happens strictly below the step budget. -/
theorem traceBody_inr (ctx : TraceCtx) (mode : TraceStartMode)
    (s s2 : TraceState) (h : traceBody ctx mode s = Sum.inr s2) :
    s2.steps = s.steps + 1 ∧ s2.steps < ctx.maxSteps := by
  simp only [traceBody] at h
  repeat' split at h
  all_goals
    first
      | exact absurd h Sum.inl_ne_inr
      | exact traceDecode_inr h

/-- Revisiting a visited cell fails immediately with the loop reason. -/
theorem traceBody_loop (ctx : TraceCtx) (mode : TraceStartMode)
    (s : TraceState) (h : (s.row, s.col) ∈ s.visited) :
    traceBody ctx mode s
      = Sum.inl (Except.error ⟨TraceReason.loopDetected, s.lastJunction⟩) := by
  rw [traceBody, if_pos h]

/-- The budget fuel is never exhausted: the loop yields a result. -/
theorem traceLoop_isSome (ctx : TraceCtx) (mode : TraceStartMode) :
    ∀ (fuel : ℕ) (s : TraceState), ctx.maxSteps ≤ fuel + s.steps →
      s.steps < ctx.maxSteps → (traceLoop ctx mode fuel s).isSome := by
  intro fuel
  induction fuel with
  | zero =>
    intro s h1 h2
    omega
  | succ f ih =>
    intro s h1 h2
    rw [traceLoop]
    cases hb : traceBody ctx mode s with
    | inl res => simp
    | inr s2 =>
      obtain ⟨he, hlt⟩ := traceBody_inr ctx mode s s2 hb
      exact ih s2 (by omega) hlt

/-- Fuel beyond the budget is irrelevant: the loop never runs more
iterations than the budget allows. -/
theorem traceLoop_fuel_indep (ctx : TraceCtx) (mode : TraceStartMode) :
    ∀ (f1 f2 : ℕ) (s : TraceState), ctx.maxSteps ≤ f1 + s.steps →
      ctx.maxSteps ≤ f2 + s.steps → s.steps < ctx.maxSteps →
      traceLoop ctx mode f1 s = traceLoop ctx mode f2 s := by
  intro f1
  induction f1 with
  | zero =>
    intro f2 s h1 h2 h3
    omega
  | succ f ih =>
    intro f2 s h1 h2 h3
    cases f2 with
    | zero => omega
    | succ f2p =>
      rw [traceLoop, traceLoop]
      cases hb : traceBody ctx mode s with
      | inl res => rfl
      | inr s2 =>
        obtain ⟨he, hlt⟩ := traceBody_inr ctx mode s s2 hb
        exact ih f2p s2 (by omega) (by omega) hlt

/-- The step budget is at least one. -/
theorem maxSteps_pos (ctx : TraceCtx) : 0 < ctx.maxSteps := by
  unfold TraceCtx.maxSteps
  omega

/-- C3: for every start cell and every grid configuration the tracer
terminates within the budget of `(rows * columns * 4).max(1)` loop
iterations (the fuel given to the loop is exactly that budget and is
never exhausted); any iteration entered at an already-visited cell
returns the loop-detected failure immediately; a continuing iteration
advances the step count by one and never continues once the count
reaches the budget (the post-increment check returns the
exceeded-step-count failure instead); and extra fuel beyond the budget
never changes the result, so no run executes more iterations than the
budget allows. -/
theorem trace_flow_path_terminates (ctx : TraceCtx) (mode : TraceStartMode)
    (r c : ℤ) :
    (trace_flow_path ctx mode r c).isSome
      ∧ (∀ s : TraceState, (s.row, s.col) ∈ s.visited →
          traceBody ctx mode s
            = Sum.inl (Except.error ⟨TraceReason.loopDetected, s.lastJunction⟩))
      ∧ (∀ s s2 : TraceState, traceBody ctx mode s = Sum.inr s2 →
          s2.steps = s.steps + 1 ∧ s2.steps < ctx.maxSteps)
      ∧ (∀ fuel : ℕ, ctx.maxSteps ≤ fuel →
          traceLoop ctx mode fuel (initState r c)
            = traceLoop ctx mode ctx.maxSteps (initState r c)) := by
  refine ⟨?_, traceBody_loop ctx mode, traceBody_inr ctx mode, ?_⟩
  · unfold trace_flow_path
    split
    · rfl
    · exact traceLoop_isSome ctx mode ctx.maxSteps (initState r c)
        (by simp [initState]) (maxSteps_pos ctx)
  · intro fuel hf
    exact traceLoop_fuel_indep ctx mode fuel ctx.maxSteps (initState r c)
      (by simp [initState]; omega) (by simp [initState]) (maxSteps_pos ctx)

end Wbt

namespace Wbt

/-- Decidable equality for trace results, used to evaluate the tracer on
concrete inputs. -/
instance {ε α : Type} [DecidableEq ε] [DecidableEq α] :
    DecidableEq (Except ε α) := fun a b =>
  match a, b with
  | .error x, .error y =>
      if h : x = y then isTrue (by rw [h])
      else isFalse (fun he => h (by cases he; rfl))
  | .error _, .ok _ => isFalse (fun he => Except.noConfusion he)
  | .ok _, .error _ => isFalse (fun he => Except.noConfusion he)
  | .ok x, .ok y =>
      if h : x = y then isTrue (by rw [h])
      else isFalse (fun he => h (by cases he; rfl))

/-- Concrete 1 x 1 context: no stream, zero pointer, no mask; the trace
fails immediately with the invalid-pointer reason. -/
def ctxW : TraceCtx :=
  ⟨⟨1, 1, -1, fun _ _ => 0⟩, ⟨1, 1, -1, fun _ _ => 0⟩, none,
    fun _ _ => -1, false, 1, 1⟩

/-- Concrete state whose current cell is already visited. -/
def sW : TraceState := ⟨0, 0, {(0, 0)}, 0, false, 0, none⟩

/-- Concrete 2 x 1 context whose top cell points south (code 8), so the
first iteration continues to the bottom cell. -/
def ctxW2 : TraceCtx :=
  ⟨⟨2, 1, -1, fun r _ => if r = 0 then 8 else 0⟩, ⟨2, 1, -1, fun _ _ => 0⟩,
    none, fun _ _ => -1, false, 2, 1⟩

/-- The state after the first iteration of `ctxW2` from cell (0, 0). -/
def s2W : TraceState := ⟨1, 0, {(0, 0)}, 1, false, 0, none⟩

/-- Witness for C3: the tracer terminates on a concrete context, the
concrete revisited state fails with the loop reason, the concrete
continuing iteration advances the step count below the budget, and extra
fuel does not change the concrete run. -/
theorem trace_flow_path_terminates_witness :
    (trace_flow_path ctxW TraceStartMode.requested 0 0).isSome
      ∧ traceBody ctxW TraceStartMode.requested sW
          = Sum.inl (Except.error ⟨TraceReason.loopDetected, none⟩)
      ∧ (s2W.steps = (initState 0 0).steps + 1 ∧ s2W.steps < ctxW2.maxSteps)
      ∧ traceLoop ctxW2 TraceStartMode.requested 9 (initState 0 0)
          = traceLoop ctxW2 TraceStartMode.requested ctxW2.maxSteps
              (initState 0 0) :=
  ⟨(trace_flow_path_terminates ctxW TraceStartMode.requested 0 0).1,
   (trace_flow_path_terminates ctxW TraceStartMode.requested 0 0).2.1 sW
     (by decide),
   (trace_flow_path_terminates ctxW2 TraceStartMode.requested 0 0).2.2.1
     (initState 0 0) s2W rfl,
   (trace_flow_path_terminates ctxW2 TraceStartMode.requested 0 0).2.2.2 9
     (by decide)⟩

end Wbt

namespace Wbt

/-! ## FindOutlet watershed-candidate sweep (find_outlet.rs lines 943-959
and 1072-1125) -/

/-- The fields of `SelectedTrace` (find_outlet.rs lines 184-192) produced
by the watershed-candidate branch; `start_mode` is always the watershed
mode and `start_offset_cells` always 0 there. -/
structure SelectedTrace where
  success : TraceSuccess
  startRow : ℤ
  startCol : ℤ
  distanceToBoundary : ℤ
  candidateRank : ℕ
deriving DecidableEq

/-- Stable insertion into a descending-by-distance list: the new element
goes after every earlier element whose distance ties or beats it. -/
def insertDesc (a : ℤ × ℤ × ℤ) : List (ℤ × ℤ × ℤ) → List (ℤ × ℤ × ℤ)
  | [] => [a]
  | b :: l => if b.1 ≤ a.1 then a :: b :: l else b :: insertDesc a l

/-- Stable sort by descending distance.  `candidates.sort_by(|a, b|
b.0.cmp(&a.0))` (find_outlet.rs line 953) is a stable sort under the
same ordering, and the output of a stable sort under a fixed ordering is
unique, so this structural insertion sort produces the identical list. -/
def sortDesc : List (ℤ × ℤ × ℤ) → List (ℤ × ℤ × ℤ)
  | [] => []
  | a :: l => insertDesc a (sortDesc l)

/-- The ranked candidate list (find_outlet.rs lines 943-953): all mask
cells in row-major order paired with their boundary distance, stably
sorted by descending distance. -/
def rankCandidates (mask : ℤ → ℤ → ℕ) (dist : ℤ → ℤ → ℤ)
    (rows cols : ℕ) : List (ℤ × ℤ × ℤ) :=
  sortDesc ((List.range rows).flatMap (fun r =>
    (List.range cols).filterMap (fun c =>
      if mask (Int.ofNat r) (Int.ofNat c) = 1 then
        some (dist (Int.ofNat r) (Int.ofNat c), Int.ofNat r, Int.ofNat c)
      else none)))

/-- The total trace call of the sweep: the fuelled tracer with budget
fuel, which the termination development shows always yields a result;
the default is unreachable. -/
def foWatershedTrace (ctx : TraceCtx) (r c : ℤ) :
    Except TraceFailure TraceSuccess :=
  (trace_flow_path ctx TraceStartMode.watershedCandidate r c).getD
    (Except.error ⟨TraceReason.exceededSteps, none⟩)

/-- The candidate loop (find_outlet.rs lines 1072-1108): try candidates
in order; the first success is selected with its rank; each failure
reason is appended to the diagnostics only while fewer than 5 are
kept. -/
def candidateSweep (tr : ℤ → ℤ → Except TraceFailure TraceSuccess) :
    List (ℤ × ℤ × ℤ) → ℕ → List TraceFailure →
      Option SelectedTrace × List TraceFailure
  | [], _, summaries => (none, summaries)
  | (d, r, c) :: rest, idx, summaries =>
    match tr r c with
    | Except.ok succ => (some ⟨succ, r, c, d, idx⟩, summaries)
    | Except.error f =>
        candidateSweep tr rest (idx + 1)
          (if summaries.length < 5 then summaries ++ [f] else summaries)

/-- The watershed sweep over the first `min(len, 512)` ranked candidates
(`max_candidates`, find_outlet.rs lines 955-959 and 1073-1074), starting
from the diagnostics accumulated by the requested-location attempt. -/
def watershedSweep (ctx : TraceCtx) (cands : List (ℤ × ℤ × ℤ))
    (init : List TraceFailure) :
    Option SelectedTrace × List TraceFailure :=
  candidateSweep (foWatershedTrace ctx) (cands.take (min cands.length 512))
    0 init

/-- Claim-side failure list: the trace failure of each candidate, in
order. -/
def sweepFailures (tr : ℤ → ℤ → Except TraceFailure TraceSuccess)
    (l : List (ℤ × ℤ × ℤ)) : List TraceFailure :=
  l.filterMap (fun cand =>
    match tr cand.2.1 cand.2.2 with
    | Except.ok _ => none
    | Except.error f => some f)

/-- Members of an insertion are the new element or old members. -/
theorem mem_insertDesc {a x : ℤ × ℤ × ℤ} :
    ∀ {l : List (ℤ × ℤ × ℤ)}, x ∈ insertDesc a l ↔ x = a ∨ x ∈ l := by
  intro l
  induction l with
  | nil => simp [insertDesc]
  | cons b t ih =>
    by_cases h : b.1 ≤ a.1
    · simp [insertDesc, h]
    · simp only [insertDesc, if_neg h, List.mem_cons, ih]
      tauto

/-- Insertion preserves the descending pairwise ordering. -/
theorem pairwise_insertDesc (a : ℤ × ℤ × ℤ) :
    ∀ l : List (ℤ × ℤ × ℤ),
      l.Pairwise (fun x y => y.1 ≤ x.1) →
      (insertDesc a l).Pairwise (fun x y => y.1 ≤ x.1) := by
  intro l
  induction l with
  | nil =>
    intro _
    simp [insertDesc]
  | cons b t ih =>
    intro hp
    rw [List.pairwise_cons] at hp
    obtain ⟨hb, ht⟩ := hp
    by_cases h : b.1 ≤ a.1
    · rw [insertDesc, if_pos h, List.pairwise_cons]
      refine ⟨?_, List.pairwise_cons.mpr ⟨hb, ht⟩⟩
      intro y hy
      rcases List.mem_cons.mp hy with hy | hy
      · exact hy ▸ h
      · exact le_trans (hb y hy) h
    · rw [insertDesc, if_neg h, List.pairwise_cons]
      refine ⟨?_, ih ht⟩
      intro y hy
      rcases mem_insertDesc.mp hy with hy | hy
      · exact hy ▸ le_of_lt (lt_of_not_le h)
      · exact hb y hy

/-- The stable sort output is descending in distance. -/
theorem pairwise_sortDesc (l : List (ℤ × ℤ × ℤ)) :
    (sortDesc l).Pairwise (fun x y => y.1 ≤ x.1) := by
  induction l with
  | nil => simp [sortDesc]
  | cons a t ih => exact pairwise_insertDesc a (sortDesc t) ih

/-- Taking `min(len, n)` elements is the same as taking `n`. -/
theorem take_min_length {α : Type} (l : List α) (n : ℕ) :
    l.take (min l.length n) = l.take n := by
  rcases le_total l.length n with h | h
  · rw [min_eq_left h, List.take_length, List.take_of_length_le h]
  · rw [min_eq_right h]

end Wbt

namespace Wbt

/-- A selected candidate is the first whose trace succeeds: it sits at
some position k of the attempted list with its rank recording k, its
trace succeeded with the recorded success, and every earlier candidate's
trace failed. -/
theorem candidateSweep_some (tr : ℤ → ℤ → Except TraceFailure TraceSuccess) :
    ∀ (l : List (ℤ × ℤ × ℤ)) (idx : ℕ) (init : List TraceFailure)
      (sel : SelectedTrace),
      (candidateSweep tr l idx init).1 = some sel →
      ∃ k, ∃ hk : k < l.length,
        l.get ⟨k, hk⟩ = (sel.distanceToBoundary, sel.startRow, sel.startCol)
          ∧ tr sel.startRow sel.startCol = Except.ok sel.success
          ∧ sel.candidateRank = idx + k
          ∧ ∀ j, ∀ hj : j < l.length, j < k →
              ∃ f, tr (l.get ⟨j, hj⟩).2.1 (l.get ⟨j, hj⟩).2.2
                    = Except.error f := by
  intro l
  induction l with
  | nil =>
    intro idx init sel h
    simp [candidateSweep] at h
  | cons hd rest ih =>
    intro idx init sel h
    obtain ⟨d, r, c⟩ := hd
    cases htr : tr r c with
    | ok succ =>
      simp only [candidateSweep, htr] at h
      cases h
      refine ⟨0, by simp, by simp, by simpa using htr, by simp, ?_⟩
      intro j hj hj0
      omega
    | error f =>
      simp only [candidateSweep, htr] at h
      obtain ⟨k, hk, hget, htr2, hrank, hprev⟩ := ih (idx + 1) _ sel h
      refine ⟨k + 1, by simpa using Nat.succ_lt_succ hk, ?_, htr2, by omega, ?_⟩
      · rw [List.get_cons_succ]
        exact hget
      · intro j hj hjk
        cases j with
        | zero => exact ⟨f, htr⟩
        | succ j2 =>
          rw [List.get_cons_succ]
          exact hprev j2 (by simpa using Nat.lt_of_succ_lt_succ hj) (by omega)

/-- When no candidate is selected, every attempted candidate's trace
failed. -/
theorem candidateSweep_none (tr : ℤ → ℤ → Except TraceFailure TraceSuccess) :
    ∀ (l : List (ℤ × ℤ × ℤ)) (idx : ℕ) (init : List TraceFailure),
      (candidateSweep tr l idx init).1 = none →
      ∀ cand ∈ l, ∃ f, tr cand.2.1 cand.2.2 = Except.error f := by
  intro l
  induction l with
  | nil =>
    intro idx init _ cand hc
    exact absurd hc (List.not_mem_nil cand)
  | cons hd rest ih =>
    intro idx init h cand hc
    obtain ⟨d, r, c⟩ := hd
    cases htr : tr r c with
    | ok succ =>
      simp only [candidateSweep, htr] at h
      exact Option.noConfusion h
    | error f =>
      simp only [candidateSweep, htr] at h
      rcases List.mem_cons.mp hc with hc | hc
      · exact ⟨f, hc ▸ htr⟩
      · exact ih (idx + 1) _ h cand hc

/-- When no candidate is selected, the final diagnostics are the first 5
of the initial diagnostics followed by the failure reasons in candidate
order. -/
theorem candidateSweep_diagnostics
    (tr : ℤ → ℤ → Except TraceFailure TraceSuccess) :
    ∀ (l : List (ℤ × ℤ × ℤ)) (idx : ℕ) (init : List TraceFailure),
      init.length ≤ 5 →
      (candidateSweep tr l idx init).1 = none →
      (candidateSweep tr l idx init).2 = (init ++ sweepFailures tr l).take 5 := by
  intro l
  induction l with
  | nil =>
    intro idx init hlen _
    simp only [candidateSweep, sweepFailures, List.filterMap_nil,
      List.append_nil]
    rw [List.take_of_length_le hlen]
  | cons hd rest ih =>
    intro idx init hlen h
    obtain ⟨d, r, c⟩ := hd
    cases htr : tr r c with
    | ok succ =>
      simp only [candidateSweep, htr] at h
      exact Option.noConfusion h
    | error f =>
      have hfail : sweepFailures tr ((d, r, c) :: rest)
          = f :: sweepFailures tr rest := by
        simp [sweepFailures, htr]
      simp only [candidateSweep, htr] at h ⊢
      rw [hfail]
      by_cases hl : init.length < 5
      · rw [if_pos hl] at h ⊢
        rw [ih (idx + 1) (init ++ [f]) (by simp; omega) h]
        rw [List.append_assoc, List.singleton_append]
      · rw [if_neg hl] at h ⊢
        have h5 : init.length = 5 := by omega
        rw [ih (idx + 1) init hlen h]
        rw [List.take_append_eq_append_take, List.take_append_eq_append_take,
          h5]
        simp [List.take_of_length_le (le_of_eq h5)]

end Wbt

namespace Wbt

/-- C9: the watershed-candidate phase of FindOutlet.  The ranked
candidate list is ordered by descending boundary distance; the sweep
attempts at most the first 512 ranked candidates; a selected result is
the first candidate whose trace succeeds (its rank records the position
and all earlier candidates failed); and when every candidate fails the
run keeps at most the first 5 accumulated failure reasons (those carried
in from the requested-location attempt followed by the candidate
failures in order) as the diagnostics of the final error. -/
theorem fo_candidate_sweep_spec (ctx : TraceCtx) (mask : ℤ → ℤ → ℕ)
    (dist : ℤ → ℤ → ℤ) (rows cols : ℕ) (init : List TraceFailure) :
    (rankCandidates mask dist rows cols).Pairwise (fun a b => b.1 ≤ a.1)
      ∧ watershedSweep ctx (rankCandidates mask dist rows cols) init
          = candidateSweep (foWatershedTrace ctx)
              ((rankCandidates mask dist rows cols).take 512) 0 init
      ∧ (∀ sel : SelectedTrace,
          (watershedSweep ctx (rankCandidates mask dist rows cols) init).1
              = some sel →
          ∃ k, ∃ hk : k < ((rankCandidates mask dist rows cols).take 512).length,
            ((rankCandidates mask dist rows cols).take 512).get ⟨k, hk⟩
                = (sel.distanceToBoundary, sel.startRow, sel.startCol)
              ∧ foWatershedTrace ctx sel.startRow sel.startCol
                  = Except.ok sel.success
              ∧ sel.candidateRank = k
              ∧ ∀ j, ∀ hj : j < ((rankCandidates mask dist rows cols).take 512).length,
                  j < k →
                  ∃ f, foWatershedTrace ctx
                        (((rankCandidates mask dist rows cols).take 512).get
                          ⟨j, hj⟩).2.1
                        (((rankCandidates mask dist rows cols).take 512).get
                          ⟨j, hj⟩).2.2
                      = Except.error f)
      ∧ (init.length ≤ 5 →
          (watershedSweep ctx (rankCandidates mask dist rows cols) init).1
              = none →
          (∀ cand ∈ (rankCandidates mask dist rows cols).take 512,
              ∃ f, foWatershedTrace ctx cand.2.1 cand.2.2 = Except.error f)
            ∧ (watershedSweep ctx (rankCandidates mask dist rows cols) init).2
                = (init ++ sweepFailures (foWatershedTrace ctx)
                    ((rankCandidates mask dist rows cols).take 512)).take 5) := by
  have h2 : watershedSweep ctx (rankCandidates mask dist rows cols) init
      = candidateSweep (foWatershedTrace ctx)
          ((rankCandidates mask dist rows cols).take 512) 0 init := by
    rw [watershedSweep, take_min_length]
  refine ⟨pairwise_sortDesc _, h2, ?_, ?_⟩
  · intro sel hsel
    rw [h2] at hsel
    obtain ⟨k, hk, hget, htr, hrank, hprev⟩ :=
      candidateSweep_some (foWatershedTrace ctx) _ 0 init sel hsel
    exact ⟨k, hk, hget, htr, by omega, hprev⟩
  · intro hlen hnone
    rw [h2] at hnone
    constructor
    · exact candidateSweep_none (foWatershedTrace ctx) _ 0 init hnone
    · rw [h2]
      exact candidateSweep_diagnostics (foWatershedTrace ctx) _ 0 init hlen hnone

/-- Mask grid of the C9 witness: a single in-mask cell. -/
def maskW : ℤ → ℤ → ℕ := fun _ _ => 1

/-- Distance grid of the C9 witness. -/
def distW : ℤ → ℤ → ℤ := fun _ _ => 7

/-- A 1 x 1 context whose only cell is a stream cell with junction count
1 and an eastward pointer, so the candidate trace exits the raster on an
accepting cell and succeeds. -/
def ctxS : TraceCtx :=
  ⟨⟨1, 1, -1, fun _ _ => 1⟩, ⟨1, 1, -1, fun _ _ => 1⟩, none,
    fun _ _ => 1, false, 1, 1⟩

/-- The successful trace of `ctxS` from its single cell. -/
def succS : TraceSuccess := ⟨0, 0, 1, 0, false, 1⟩

/-- The selected candidate of the witness run. -/
def selS : SelectedTrace := ⟨succS, 0, 0, 7, 0⟩

/-- Witness for C9: a concrete run in which the single candidate
succeeds and is selected with rank 0, and a concrete run (`ctxW`) in
which the single candidate fails and the diagnostics keep its reason. -/
theorem fo_candidate_sweep_spec_witness :
    (watershedSweep ctxS (rankCandidates maskW distW 1 1) []).1 = some selS
      ∧ (∃ k, ∃ hk : k < ((rankCandidates maskW distW 1 1).take 512).length,
          ((rankCandidates maskW distW 1 1).take 512).get ⟨k, hk⟩
              = (selS.distanceToBoundary, selS.startRow, selS.startCol)
            ∧ foWatershedTrace ctxS selS.startRow selS.startCol
                = Except.ok selS.success
            ∧ selS.candidateRank = k
            ∧ ∀ j, ∀ hj : j < ((rankCandidates maskW distW 1 1).take 512).length,
                j < k →
                ∃ f, foWatershedTrace ctxS
                      (((rankCandidates maskW distW 1 1).take 512).get
                        ⟨j, hj⟩).2.1
                      (((rankCandidates maskW distW 1 1).take 512).get
                        ⟨j, hj⟩).2.2
                    = Except.error f)
      ∧ ([] : List TraceFailure).length ≤ 5
      ∧ (watershedSweep ctxW (rankCandidates maskW distW 1 1) []).1 = none
      ∧ ((∀ cand ∈ (rankCandidates maskW distW 1 1).take 512,
            ∃ f, foWatershedTrace ctxW cand.2.1 cand.2.2 = Except.error f)
          ∧ (watershedSweep ctxW (rankCandidates maskW distW 1 1) []).2
              = (([] : List TraceFailure) ++ sweepFailures (foWatershedTrace ctxW)
                  ((rankCandidates maskW distW 1 1).take 512)).take 5) :=
  ⟨by decide,
   (fo_candidate_sweep_spec ctxS maskW distW 1 1 []).2.2.1 selS (by decide),
   by decide,
   by decide,
   (fo_candidate_sweep_spec ctxW maskW distW 1 1 []).2.2.2 (by decide)
     (by decide)⟩

end Wbt

namespace Wbt

/-! ## HillslopesTopaz Phase 5: hillslope flood fill
(hillslopes_topaz.rs lines 952-1092) -/

/-- Environment of the flood fill: the validated rasters, read in bounds
only, as total cell functions. -/
structure FillEnv where
  rows : ℤ
  cols : ℤ
  d8 : ℤ → ℤ → ℚ
  watershed : ℤ → ℤ → ℚ
  chnjnt : ℤ → ℤ → ℚ
  esri : Bool

/-- Rust `value as usize` on an f64: truncation toward zero, saturating
at 0 for negative values.  For non-negative values floor division of the
numerator by the denominator is exact truncation, and for negative
values both the floor quotient and the truncated quotient are
non-positive, so `toNat` yields 0 either way. -/
def ratToUsize (q : ℚ) : ℕ := (q.num / (q.den : ℤ)).toNat

/-- Decode the D8 pointer at a cell through the hillslopes_topaz table:
`pntr_matches[d8_pntr.get_value(r, c) as usize]`. -/
def hsDir (env : FillEnv) (r c : ℤ) : ℕ :=
  hsPntrMatches env.esri (ratToUsize (env.d8 r c))

/-- One downstream step from a cell along its decoded pointer. -/
def fillStep (env : FillEnv) (p : ℤ × ℤ) : ℤ × ℤ :=
  (p.1 + dyT (hsDir env p.1 p.2), p.2 + dxT (hsDir env p.1 p.2))

/-- `f64::MIN`, the `low_value` sentinel the output raster is initialised
with (hillslopes_topaz.rs lines 604-606): -(2^53 - 1) * 2^971 exactly. -/
def lowValue : ℚ := -((2 ^ 53 - 1) * 2 ^ 971)

/-- Rust `q % 10.0` (truncated remainder) for the positive labels that
reach it: the floor quotient of the numerator by ten times the
denominator is the truncated quotient of q by 10 for positive q. -/
def fmod10 (q : ℚ) : ℚ := q - 10 * ((q.num / (10 * (q.den : ℤ)) : ℤ) : ℚ)

/-- The cross product deciding the side of the flow
(hillslopes_topaz.rs lines 1016-1024): `u` is the direction index of the
channel flow, `v` the direction index of the inflow; the f64 products of
the offset components are exact on these small integers, so the cross
product is computed in ℤ. -/
def crossZ (u v : ℕ) : ℤ := dxT u * dyT v - dyT u * dxT v

/-- The upstream-channel-neighbour scan of the zero-cross tie-break
(hillslopes_topaz.rs lines 1038-1053): the first neighbour offset i of
the channel cell (rn, cn) whose cell is in bounds, whose own pointer
steps back onto (rn, cn), and whose chnjnt value is positive. -/
def upstreamScan (env : FillEnv) (rn cn : ℤ) : Option ℕ :=
  (List.range 8).find? (fun i =>
    decide (0 ≤ rn + dyT i ∧ rn + dyT i < env.rows
        ∧ 0 ≤ cn + dxT i ∧ cn + dxT i < env.cols)
      && decide (fillStep env (rn + dyT i, cn + dxT i) = (rn, cn))
      && decide (0 < env.chnjnt (rn + dyT i) (cn + dxT i)))

/-- The zero-cross tie-break (hillslopes_topaz.rs lines 1034-1071): when
an upstream channel neighbour is found, apply the cross-product test
with that cell's own flow direction; otherwise, or when that cross
product is also zero, the found value stays 0 and the walk continues. -/
def upstreamResolve (env : FillEnv) (g : ℤ → ℤ → ℚ) (c : ℕ)
    (rn cn : ℤ) : ℚ :=
  match upstreamScan env rn cn with
  | none => 0
  | some i =>
      let cup := hsDir env (rn + dyT i) (cn + dxT i)
      if 0 < crossZ cup c then g rn cn - 2
      else if crossZ cup c < 0 then g rn cn - 1
      else 0

/-- Resolution of a labelled next cell (hillslopes_topaz.rs lines
991-1073), given the entry direction index `c` from the walked cell:
the invalid-label abort, hillslope inheritance, the headwater pour
point, and the cross-product side selection. -/
def resolveFound (env : FillEnv) (g : ℤ → ℤ → ℚ) (c : ℕ) (rn cn : ℤ) :
    Except Unit ℚ :=
  if g rn cn ≤ 0 then Except.error ()
  else if fmod10 (g rn cn) ≤ 3 then Except.ok (g rn cn)
  else if env.chnjnt rn cn = 0 then Except.ok (g rn cn - 3)
  else if 0 < crossZ (hsDir env rn cn) c then Except.ok (g rn cn - 2)
  else if crossZ (hsDir env rn cn) c < 0 then Except.ok (g rn cn - 1)
  else Except.ok (upstreamResolve env g c rn cn)

/-- Outcome of the per-cell downstream walk. -/
inductive FillRes
  | invalidId
  | boundary
  | found (v : ℚ) (cur : ℤ × ℤ)
deriving DecidableEq

/-- The `while found_topaz_id == 0.0` walk (hillslopes_topaz.rs lines
971-1076), fuelled: `none` is fuel exhaustion (the source loop has no
safeguard of its own), `boundary` the raster/watershed exit with nothing
found, `found v cur` the exit with a nonzero label and the final current
cell. -/
def fillWalk (env : FillEnv) (g : ℤ → ℤ → ℚ) :
    ℕ → ℤ × ℤ → Option FillRes
  | 0, _ => none
  | fuel + 1, cur =>
    let c := hsDir env cur.1 cur.2
    let rn := cur.1 + dyT c
    let cn := cur.2 + dxT c
    if rn < 0 ∨ env.rows ≤ rn ∨ cn < 0 ∨ env.cols ≤ cn then
      some FillRes.boundary
    else if env.watershed rn cn ≠ 1 then some FillRes.boundary
    else if g rn cn ≠ lowValue then
      match resolveFound env g c rn cn with
      | Except.error _ => some FillRes.invalidId
      | Except.ok v =>
          if v ≠ 0 then some (FillRes.found v (rn, cn))
          else fillWalk env g fuel (rn, cn)
    else fillWalk env g fuel (rn, cn)

/-- Point update of the output grid. -/
def updateG (g : ℤ → ℤ → ℚ) (p : ℤ × ℤ) (v : ℚ) : ℤ → ℤ → ℚ :=
  fun r c => if (r, c) = p then v else g r c

/-- The backtrack stamping loop (hillslopes_topaz.rs lines 1079-1090):
walk the same pointer path from the start cell until the stop cell,
stamping every cell still holding the sentinel with the found value. -/
def backtrackStamp (env : FillEnv) :
    ℕ → ℤ × ℤ → ℤ × ℤ → ℚ → (ℤ → ℤ → ℚ) → (ℤ → ℤ → ℚ)
  | 0, _, _, _, g => g
  | fuel + 1, bt, stop, v, g =>
    if bt = stop then g
    else
      backtrackStamp env fuel (fillStep env bt) stop v
        (if g bt.1 bt.2 = lowValue then updateG g bt v else g)

/-- The cells visited by the backtrack loop, in order. -/
def btPath (env : FillEnv) : ℕ → ℤ × ℤ → ℤ × ℤ → List (ℤ × ℤ)
  | 0, _, _ => []
  | fuel + 1, bt, stop =>
    if bt = stop then [] else bt :: btPath env fuel (fillStep env bt) stop

/-- One per-start-cell pass of Phase 5: walk downstream, then stamp the
walked cells when a label was found. -/
def fillFrom (env : FillEnv) (g : ℤ → ℤ → ℚ) (fuel : ℕ)
    (start : ℤ × ℤ) : Option (Except Unit (ℤ → ℤ → ℚ)) :=
  match fillWalk env g fuel start with
  | none => none
  | some FillRes.invalidId => some (Except.error ())
  | some FillRes.boundary => some (Except.ok g)
  | some (FillRes.found v cur) =>
      some (Except.ok (backtrackStamp env fuel start cur v g))

end Wbt

namespace Wbt

/-- Backtracking never touches a cell outside its path. -/
theorem backtrackStamp_not_mem (env : FillEnv) (v : ℚ) (x : ℤ × ℤ) :
    ∀ (fuel : ℕ) (bt stop : ℤ × ℤ) (g : ℤ → ℤ → ℚ),
      x ∉ btPath env fuel bt stop →
      backtrackStamp env fuel bt stop v g x.1 x.2 = g x.1 x.2 := by
  intro fuel
  induction fuel with
  | zero =>
    intro bt stop g _
    rfl
  | succ f ih =>
    intro bt stop g hx
    by_cases hbs : bt = stop
    · rw [backtrackStamp, if_pos hbs]
    · rw [btPath, if_neg hbs, List.mem_cons] at hx
      push_neg at hx
      obtain ⟨hx1, hx2⟩ := hx
      rw [backtrackStamp, if_neg hbs, ih _ _ _ hx2]
      by_cases hlow : g bt.1 bt.2 = lowValue
      · rw [if_pos hlow, updateG]
        rw [if_neg ?_]
        intro he
        exact hx1 (by rw [← he])
      · rw [if_neg hlow]

/-- Backtracking writes only the found value. -/
theorem backtrackStamp_writes (env : FillEnv) (v : ℚ) (x : ℤ × ℤ) :
    ∀ (fuel : ℕ) (bt stop : ℤ × ℤ) (g : ℤ → ℤ → ℚ),
      backtrackStamp env fuel bt stop v g x.1 x.2 = g x.1 x.2
        ∨ backtrackStamp env fuel bt stop v g x.1 x.2 = v := by
  intro fuel
  induction fuel with
  | zero =>
    intro bt stop g
    exact Or.inl rfl
  | succ f ih =>
    intro bt stop g
    by_cases hbs : bt = stop
    · rw [backtrackStamp, if_pos hbs]
      exact Or.inl rfl
    · rw [backtrackStamp, if_neg hbs]
      rcases ih (fillStep env bt) stop
          (if g bt.1 bt.2 = lowValue then updateG g bt v else g) with h | h
      · rw [h]
        by_cases hlow : g bt.1 bt.2 = lowValue
        · rw [if_pos hlow, updateG]
          by_cases hx : (x.1, x.2) = bt
          · rw [if_pos hx]
            exact Or.inr rfl
          · rw [if_neg hx]
            exact Or.inl rfl
        · rw [if_neg hlow]
          exact Or.inl rfl
      · exact Or.inr h

/-- Every path cell still holding the sentinel is stamped with the found
value. -/
theorem backtrackStamp_mem (env : FillEnv) (v : ℚ) (x : ℤ × ℤ) :
    ∀ (fuel : ℕ) (bt stop : ℤ × ℤ) (g : ℤ → ℤ → ℚ),
      x ∈ btPath env fuel bt stop → g x.1 x.2 = lowValue →
      backtrackStamp env fuel bt stop v g x.1 x.2 = v := by
  intro fuel
  induction fuel with
  | zero =>
    intro bt stop g hx _
    exact absurd hx (List.not_mem_nil x)
  | succ f ih =>
    intro bt stop g hx hlow
    by_cases hbs : bt = stop
    · rw [btPath, if_pos hbs] at hx
      exact absurd hx (List.not_mem_nil x)
    · rw [btPath, if_neg hbs, List.mem_cons] at hx
      rw [backtrackStamp, if_neg hbs]
      by_cases hxb : x = bt
      · have hglow : g bt.1 bt.2 = lowValue := by rw [← hxb]; exact hlow
        rw [if_pos hglow]
        rcases backtrackStamp_writes env v x f (fillStep env bt) stop
            (updateG g bt v) with h | h
        · rw [h, updateG, if_pos (by rw [hxb])]
        · exact h
      · rcases hx with hx | hx
        · exact absurd hx hxb
        · by_cases hglow : g bt.1 bt.2 = lowValue
          · rw [if_pos hglow]
            refine ih _ _ _ hx ?_
            rw [updateG, if_neg ?_]
            · exact hlow
            · intro he
              exact hxb (Prod.ext (congrArg Prod.fst he) (congrArg Prod.snd he))
          · rw [if_neg hglow]
            exact ih _ _ _ hx hlow

end Wbt

namespace Wbt

/-- A walk ending with a found label stopped at the first labelled cell
it reached: the final current cell is one pointer step from some walked
cell, it carries a label, and the resolution of that label from the
entry direction produced the nonzero found value. -/
theorem fillWalk_found (env : FillEnv) (g : ℤ → ℤ → ℚ) :
    ∀ (fuel : ℕ) (start : ℤ × ℤ) (v : ℚ) (cur : ℤ × ℤ),
      fillWalk env g fuel start = some (FillRes.found v cur) →
      ∃ prev : ℤ × ℤ,
        cur = fillStep env prev
          ∧ env.watershed cur.1 cur.2 = 1
          ∧ g cur.1 cur.2 ≠ lowValue
          ∧ resolveFound env g (hsDir env prev.1 prev.2) cur.1 cur.2
              = Except.ok v
          ∧ v ≠ 0 := by
  intro fuel
  induction fuel with
  | zero =>
    intro start v cur h
    simp [fillWalk] at h
  | succ f ih =>
    intro start v cur h
    simp only [fillWalk] at h
    split at h
    · simp at h
    · split at h
      · simp at h
      · split at h
        · split at h
          · simp at h
          · split at h
            · rw [Option.some.injEq, FillRes.found.injEq] at h
              obtain ⟨hv2, hc2⟩ := h
              refine ⟨start, ?_, ?_, ?_, ?_, ?_⟩
              · rw [← hc2]
                rfl
              · rw [← hc2]
                exact not_ne_iff.mp (by assumption)
              · rw [← hc2]
                assumption
              · rw [← hc2, ← hv2]
                assumption
              · rw [← hv2]
                assumption
            · exact ih _ v cur h
        · exact ih _ v cur h

end Wbt

namespace Wbt

/-- C7: during hillslope flood fill, when the downstream walk first
reaches a labelled channel cell (label positive, last digit above 3),
the resolution of that cell from the entry direction `c` follows the
claimed rules: junction count 0 stamps label - 3; otherwise the cross
product of the channel's continuing direction with the entry direction
selects label - 2 when positive and label - 1 when negative; a zero
cross product is retried with the flow direction of the first upstream
channel neighbour (one that points onto the channel cell and has a
positive junction count).  Moreover a walk that ends with a found value
obtained that value by resolving the first labelled cell it reached, and
the subsequent backtrack stamps exactly the still-unlabelled walked
cells with that value, leaving every other cell unchanged. -/
theorem hillslope_fill_sides (env : FillEnv) (g : ℤ → ℤ → ℚ) (c : ℕ)
    (rn cn : ℤ) (fuel : ℕ) (start : ℤ × ℤ)
    (hpos : 0 < g rn cn) (hchan : 3 < fmod10 (g rn cn)) :
    (env.chnjnt rn cn = 0 →
        resolveFound env g c rn cn = Except.ok (g rn cn - 3))
      ∧ (env.chnjnt rn cn ≠ 0 → 0 < crossZ (hsDir env rn cn) c →
        resolveFound env g c rn cn = Except.ok (g rn cn - 2))
      ∧ (env.chnjnt rn cn ≠ 0 → crossZ (hsDir env rn cn) c < 0 →
        resolveFound env g c rn cn = Except.ok (g rn cn - 1))
      ∧ (env.chnjnt rn cn ≠ 0 → crossZ (hsDir env rn cn) c = 0 →
        ∀ i : ℕ, upstreamScan env rn cn = some i →
          (fillStep env (rn + dyT i, cn + dxT i) = (rn, cn)
              ∧ 0 < env.chnjnt (rn + dyT i) (cn + dxT i))
            ∧ (0 < crossZ (hsDir env (rn + dyT i) (cn + dxT i)) c →
              resolveFound env g c rn cn = Except.ok (g rn cn - 2))
            ∧ (crossZ (hsDir env (rn + dyT i) (cn + dxT i)) c < 0 →
              resolveFound env g c rn cn = Except.ok (g rn cn - 1)))
      ∧ (∀ (v : ℚ) (cur : ℤ × ℤ),
          fillWalk env g fuel start = some (FillRes.found v cur) →
          (∃ prev : ℤ × ℤ,
            cur = fillStep env prev
              ∧ g cur.1 cur.2 ≠ lowValue
              ∧ resolveFound env g (hsDir env prev.1 prev.2) cur.1 cur.2
                  = Except.ok v
              ∧ v ≠ 0)
            ∧ fillFrom env g fuel start
                = some (Except.ok (backtrackStamp env fuel start cur v g))
            ∧ (∀ x : ℤ × ℤ, x ∉ btPath env fuel start cur →
                backtrackStamp env fuel start cur v g x.1 x.2 = g x.1 x.2)
            ∧ (∀ x : ℤ × ℤ, x ∈ btPath env fuel start cur →
                g x.1 x.2 = lowValue →
                backtrackStamp env fuel start cur v g x.1 x.2 = v)) := by
  have hne : ¬ g rn cn ≤ 0 := not_le.mpr hpos
  have hnf : ¬ fmod10 (g rn cn) ≤ 3 := not_le.mpr hchan
  refine ⟨?_, ?_, ?_, ?_, ?_⟩
  · intro hj
    rw [resolveFound, if_neg hne, if_neg hnf, if_pos hj]
  · intro hj hcr
    rw [resolveFound, if_neg hne, if_neg hnf, if_neg hj, if_pos hcr]
  · intro hj hcr
    rw [resolveFound, if_neg hne, if_neg hnf, if_neg hj,
      if_neg (not_lt.mpr (le_of_lt hcr)), if_pos hcr]
  · intro hj hcr i hscan
    have hpred := List.find?_some hscan
    rw [Bool.and_eq_true, Bool.and_eq_true] at hpred
    obtain ⟨⟨_, hstep⟩, hjn⟩ := hpred
    rw [decide_eq_true_eq] at hstep hjn
    have hbase : resolveFound env g c rn cn
        = Except.ok (upstreamResolve env g c rn cn) := by
      rw [resolveFound, if_neg hne, if_neg hnf, if_neg hj,
        if_neg (by rw [hcr]; exact lt_irrefl 0),
        if_neg (by rw [hcr]; exact lt_irrefl 0)]
    refine ⟨⟨hstep, hjn⟩, ?_, ?_⟩
    · intro hcup
      rw [hbase, upstreamResolve, hscan]
      simp [hcup]
    · intro hcup
      have h1 : ¬ 0 < crossZ (hsDir env (rn + dyT i) (cn + dxT i)) c :=
        not_lt.mpr (le_of_lt hcup)
      rw [hbase, upstreamResolve, hscan]
      simp [h1, hcup]
  · intro v cur hwalk
    refine ⟨fillWalk_found env g fuel start v cur hwalk |>.imp ?_, ?_, ?_, ?_⟩
    · intro prev hprev
      exact ⟨hprev.1, hprev.2.2.1, hprev.2.2.2.1, hprev.2.2.2.2⟩
    · rw [fillFrom, hwalk]
    · intro x hx
      exact backtrackStamp_not_mem env v x fuel start cur g hx
    · intro x hx hlow
      exact backtrackStamp_mem env v x fuel start cur g hx hlow
end Wbt

namespace Wbt

/-- Witness grid: TOPAZ channel label 24 at cell (1, 1), the sentinel
everywhere else. -/
def gW : ℤ → ℤ → ℚ := fun r c => if r = 1 ∧ c = 1 then 24 else lowValue

/-- Witness environment for the headwater case: every cell has junction
count 0. -/
def envA : FillEnv :=
  ⟨3, 3, fun _ _ => 8, fun _ _ => 1, fun _ _ => 0, false⟩

/-- Witness environment with an eastward channel cell at (1, 1) inside a
southward pointer field, junction count 1 everywhere. -/
def envB : FillEnv :=
  ⟨3, 3, fun r c => if r = 1 ∧ c = 1 then 2 else 8, fun _ _ => 1,
    fun _ _ => 1, false⟩

/-- Witness environment like `envB` but with the cell south of the
channel flowing north into it, so the upstream scan finds offset 3. -/
def envE : FillEnv :=
  ⟨3, 3,
    fun r c =>
      if r = 1 ∧ c = 1 then 2 else if r = 2 ∧ c = 1 then 128 else 8,
    fun _ _ => 1, fun _ _ => 1, false⟩

/-- The channel label at the witness cell. -/
theorem gW_cell : gW 1 1 = 24 := rfl

/-- Truncated remainder of the witness label. -/
theorem fmod10_24 : fmod10 (24 : ℚ) = 4 := by
  rw [fmod10]
  have h1 : ((24 : ℚ).num / (10 * ((24 : ℚ).den : ℤ))) = 2 := by decide
  rw [h1]
  norm_num

/-- The witness label is positive. -/
theorem gW_pos : 0 < gW 1 1 := by
  rw [gW_cell]
  norm_num

/-- The witness label's last digit is above 3. -/
theorem gW_chan : 3 < fmod10 (gW 1 1) := by
  rw [gW_cell, fmod10_24]
  norm_num

/-- The witness walk from the unlabelled cell (0, 1) reaches the channel
cell (1, 1) in one step and resolves to label 22 (left side). -/
theorem fillWalkB : fillWalk envB gW 1 (0, 1)
    = some (FillRes.found 22 (1, 1)) := by
  have hres : resolveFound envB gW 3 1 1 = Except.ok 22 := by
    have h1 : ¬ gW 1 1 ≤ 0 := not_le.mpr gW_pos
    have h2 : ¬ fmod10 (gW 1 1) ≤ 3 := not_le.mpr gW_chan
    have h3 : envB.chnjnt 1 1 ≠ 0 := by decide
    have h4 : 0 < crossZ (hsDir envB 1 1) 3 := by decide
    rw [resolveFound, if_neg h1, if_neg h2, if_neg h3, if_pos h4, gW_cell]
    norm_num
  have hsd : hsDir envB 0 1 = 3 := by decide
  have hdy3 : dyT 3 = 1 := by decide
  have hdx3 : dxT 3 = 0 := by decide
  have hrows : envB.rows = 3 := rfl
  have hcols : envB.cols = 3 := rfl
  have hw : envB.watershed 1 1 = (1 : ℚ) := rfl
  have hglow : gW 1 1 ≠ lowValue := by
    rw [gW_cell, lowValue]; norm_num
  show fillWalk envB gW (0 + 1) (0, 1) = _
  rw [fillWalk]
  simp only [hsd, hdy3, hdx3]
  norm_num [hrows, hcols, hw, hglow]
  rw [hres]
  norm_num

/-- C7 witness: concrete instances of every branch of the side
selection (headwater, positive cross, negative cross, zero cross
resolved upstream both ways) and of the walk/backtrack conjunct. -/
theorem hillslope_fill_sides_witness :
    resolveFound envA gW 3 1 1 = Except.ok (gW 1 1 - 3)
    ∧ resolveFound envB gW 3 1 1 = Except.ok (gW 1 1 - 2)
    ∧ resolveFound envB gW 7 1 1 = Except.ok (gW 1 1 - 1)
    ∧ resolveFound envB gW 1 1 1 = Except.ok (gW 1 1 - 1)
    ∧ resolveFound envE gW 1 1 1 = Except.ok (gW 1 1 - 2)
    ∧ fillFrom envB gW 1 (0, 1)
        = some (Except.ok (backtrackStamp envB 1 (0, 1) (1, 1) 22 gW))
    ∧ backtrackStamp envB 1 (0, 1) (1, 1) 22 gW 2 2 = gW 2 2
    ∧ backtrackStamp envB 1 (0, 1) (1, 1) 22 gW 0 1 = 22 := by
  refine ⟨?_, ?_, ?_, ?_, ?_, ?_, ?_, ?_⟩
  · exact (hillslope_fill_sides envA gW 3 1 1 0 (0, 0) gW_pos gW_chan).1
      (by decide)
  · exact (hillslope_fill_sides envB gW 3 1 1 0 (0, 0) gW_pos gW_chan).2.1
      (by decide) (by decide)
  · exact (hillslope_fill_sides envB gW 7 1 1 0 (0, 0) gW_pos gW_chan).2.2.1
      (by decide) (by decide)
  · exact ((hillslope_fill_sides envB gW 1 1 1 0 (0, 0) gW_pos
      gW_chan).2.2.2.1 (by decide) (by decide) 7 (by decide)).2.2 (by decide)
  · exact ((hillslope_fill_sides envE gW 1 1 1 0 (0, 0) gW_pos
      gW_chan).2.2.2.1 (by decide) (by decide) 3 (by decide)).2.1 (by decide)
  · exact ((hillslope_fill_sides envB gW 0 1 1 1 (0, 1) gW_pos
      gW_chan).2.2.2.2 22 (1, 1) fillWalkB).2.1
  · exact ((hillslope_fill_sides envB gW 0 1 1 1 (0, 1) gW_pos
      gW_chan).2.2.2.2 22 (1, 1) fillWalkB).2.2.1 (2, 2) (by decide)
  · exact ((hillslope_fill_sides envB gW 0 1 1 1 (0, 1) gW_pos
      gW_chan).2.2.2.2 22 (1, 1) fillWalkB).2.2.2 (0, 1) (by decide) rfl

end Wbt
